import Mathlib

/-!
Verification of the interaction core of `yanger` (terminal client for a
remote, quota-limited playlist API).

This file shallowly embeds the parts of the Python source that the checked
properties are about:

* `src/yanger/models.py` — `Video`, `Playlist`, `ClipboardItem`, `Clipboard`;
* `src/yanger/api_client.py` — `QUOTA_COSTS`, `_track_quota`,
  `get_quota_remaining`, `add_video_to_playlist`, `remove_video_from_playlist`;
* `src/yanger/operation_history.py` — `PasteOperation.execute/undo`,
  `OperationStack.execute/undo/redo`;
* `src/yanger/app.py` — the `on_key` pending-prefix dispatch,
  `execute_ranger_command('p')` with its quota pre-flight,
  `paste_videos`, `handle_delete_playlist`;
* `src/yanger/ui/miller_view.py` — `enter_visual_mode` / `exit_visual_mode`.

Modelling conventions.  Stateful Python objects become explicit state passing:
the API client's mutable quota counter together with the remote playlist
memberships and a log of issued HTTP calls form `ApiState`.  Python
exceptions become explicit failure results: a raised exception inside a
method that the caller catches is a `false`/`none` component paired with the
state as mutated up to the point of the raise (Python exceptions do not roll
back mutations).  The remote service itself is outside the repository; it is
modelled with the behaviour the client code is written against: an insert
returns a fresh playlist-item id, and a delete of a playlist-item id that no
longer exists fails (HTTP 404 → `HttpError` → the `except` branch).
Opaque string identifiers stay strings; fresh remote ids are generated from a
counter.
-/

/-- Embeds `models.Video` restricted to the fields the verified operations read:
`id`, `playlist_item_id`, `title`, `is_marked`.  The remaining dataclass
fields (timestamps, counts, thumbnails, …) are never consulted by the paste,
clipboard, history or visual-mode code. -/
structure Video where
  id : String
  playlist_item_id : String
  title : String
  is_marked : Bool
deriving Repr, DecidableEq

/-- Embeds `models.Playlist` restricted to the fields consulted by the delete-playlist
path: `id`, `title`, `is_special`, `is_virtual`. -/
structure Playlist where
  id : String
  title : String
  is_special : Bool
  is_virtual : Bool
deriving Repr, DecidableEq

/-- Embeds `models.ClipboardItem`: a video tagged with its source playlist and the
operation kind (`"copy"` or `"cut"`). -/
structure ClipboardItem where
  video : Video
  source_playlist_id : String
  operation : String
deriving Repr, DecidableEq

/-- Embeds `models.Clipboard`: a plain list of `ClipboardItem`s. -/
structure Clipboard where
  items : List ClipboardItem
deriving Repr, DecidableEq

/-- Embeds `Clipboard.copy`: replace the contents, tagging every item `"copy"`. -/
def Clipboard.copy (_cb : Clipboard) (videos : List Video)
    (source_playlist_id : String) : Clipboard :=
  ⟨videos.map fun v => ⟨v, source_playlist_id, "copy"⟩⟩

/-- Embeds `Clipboard.cut`: replace the contents, tagging every item `"cut"`. -/
def Clipboard.cut (_cb : Clipboard) (videos : List Video)
    (source_playlist_id : String) : Clipboard :=
  ⟨videos.map fun v => ⟨v, source_playlist_id, "cut"⟩⟩

/-- Embeds `Clipboard.clear`. -/
def Clipboard.clear (_cb : Clipboard) : Clipboard := ⟨[]⟩

/-- Embeds `Clipboard.is_empty`. -/
def Clipboard.is_empty (cb : Clipboard) : Bool := cb.items.length == 0

/-- Embeds `Clipboard.get_operation_type`: kind of the first item, if any. -/
def Clipboard.get_operation_type (cb : Clipboard) : Option String :=
  cb.items.head?.map (·.operation)

/-- One playlist membership entry on the remote: the playlist-item id, the
video it wraps and the playlist that contains it. -/
structure PlaylistItem where
  itemId : String
  videoId : String
  playlistId : String
deriving Repr, DecidableEq

/-- One HTTP request issued against the remote API (the call log lets the
theorems talk about which remote calls an operation performed). -/
inductive RemoteCall where
  | insertItem (videoId : String) (playlistId : String)
  | deleteItem (itemId : String)
deriving Repr, DecidableEq

/-- The mutable state of `YouTubeAPIClient` plus the remote it talks to:
the quota counter (`daily_quota`, `quota_used`), the remote playlist
memberships, a fresh-id counter for ids the remote hands out, and the log of
HTTP calls issued so far. -/
structure ApiState where
  daily_quota : Nat
  quota_used : Nat
  items : List PlaylistItem
  next_item_id : Nat
  calls : List RemoteCall
deriving Repr, DecidableEq

/-- Embeds `YouTubeAPIClient.QUOTA_COSTS` with the dictionary's `.get(operation, 1)`
default. -/
def quotaCost (operation : String) : Nat :=
  if operation = "playlists.list" then 1
  else if operation = "playlistItems.list" then 1
  else if operation = "videos.list" then 1
  else if operation = "playlists.insert" then 50
  else if operation = "playlists.update" then 50
  else if operation = "playlists.delete" then 50
  else if operation = "playlistItems.insert" then 50
  else if operation = "playlistItems.update" then 50
  else if operation = "playlistItems.delete" then 50
  else 1

/-- Embeds `YouTubeAPIClient._track_quota`: charge `cost = QUOTA_COSTS[operation] *
count`; if the charge would push `quota_used` past `daily_quota`, raise
`QuotaExceededError` (here: `none`) leaving the counter untouched, else
record the spend. -/
def ApiState.track_quota (s : ApiState) (operation : String) (count : Nat := 1) :
    Option ApiState :=
  let cost := quotaCost operation * count
  if s.quota_used + cost > s.daily_quota then none
  else some { s with quota_used := s.quota_used + cost }

/-- Embeds `YouTubeAPIClient.get_quota_remaining` (`daily_quota - quota_used`,
Python integer subtraction). -/
def ApiState.get_quota_remaining (s : ApiState) : Int :=
  (s.daily_quota : Int) - (s.quota_used : Int)

/-- Embeds `YouTubeAPIClient.add_video_to_playlist`: track quota for
`playlistItems.insert` (a raise aborts before any HTTP call), then issue the
insert; the remote creates a fresh playlist-item id and membership.
Returns the new id, or `none` when the quota raise propagated. -/
def ApiState.add_video_to_playlist (s : ApiState) (video_id : String)
    (playlist_id : String) : Option String × ApiState :=
  match s.track_quota "playlistItems.insert" with
  | none => (none, s)
  | some s1 =>
      let newId := "item" ++ toString s1.next_item_id
      (some newId,
        { s1 with
            items := s1.items ++ [⟨newId, video_id, playlist_id⟩]
            next_item_id := s1.next_item_id + 1
            calls := s1.calls ++ [RemoteCall.insertItem video_id playlist_id] })

/-- Embeds `YouTubeAPIClient.remove_video_from_playlist`: track quota for
`playlistItems.delete` (a raise aborts before any HTTP call), then issue the
delete.  The remote deletes the membership when the playlist-item id exists
and answers 404 otherwise, which the client surfaces as a raised `HttpError`
(here: `false`).  The quota charge and the issued call stand either way,
exactly as in the client code. -/
def ApiState.remove_video_from_playlist (s : ApiState) (playlist_item_id : String) :
    Bool × ApiState :=
  match s.track_quota "playlistItems.delete" with
  | none => (false, s)
  | some s1 =>
      let s2 := { s1 with calls := s1.calls ++ [RemoteCall.deleteItem playlist_item_id] }
      if s2.items.any (fun it => it.itemId == playlist_item_id) then
        (true, { s2 with items := s2.items.filter (fun it => it.itemId != playlist_item_id) })
      else
        (false, s2)

/-- Embeds `operation_history.PasteOperation`: the dataclass fields plus the
`Operation` base-class state (`description`, `executed`). -/
structure PasteOperation where
  videos : List Video
  target_playlist_id : String
  source_playlist_id : Option String
  is_cut : Bool
  added_item_ids : List String
  description : String
  executed : Bool
deriving Repr, DecidableEq

/-- Embeds `PasteOperation.__init__`: sets the description from the kind and count,
starts with `added_item_ids = []` and `executed = False`. -/
def mkPasteOperation (videos : List Video) (target_playlist_id : String)
    (source_playlist_id : Option String) (is_cut : Bool) : PasteOperation :=
  { videos := videos
    target_playlist_id := target_playlist_id
    source_playlist_id := source_playlist_id
    is_cut := is_cut
    added_item_ids := []
    description :=
      (if is_cut then "Move " else "Copy ") ++ toString videos.length ++ " video(s)"
    executed := false }

/-- The add loop of `PasteOperation.execute`: add each video to the target,
appending each returned id to the (already populated) `added_item_ids`
accumulator; a raise (`none`) aborts the loop keeping the ids appended so
far and the API state as mutated so far. -/
def pasteAddLoop (target : String) :
    List Video → List String → ApiState → Bool × List String × ApiState
  | [], acc, s => (true, acc, s)
  | v :: vs, acc, s =>
      match s.add_video_to_playlist v.id target with
      | (some itemId, s1) => pasteAddLoop target vs (acc ++ [itemId]) s1
      | (none, s1) => (false, acc, s1)

/-- The cut-removal loop of `PasteOperation.execute`: remove each video's
`playlist_item_id` from its source; a raise aborts the loop. -/
def pasteCutRemoveLoop : List Video → ApiState → Bool × ApiState
  | [], s => (true, s)
  | v :: vs, s =>
      match s.remove_video_from_playlist v.playlist_item_id with
      | (true, s1) => pasteCutRemoveLoop vs s1
      | (false, s1) => (false, s1)

/-- The removal loop of `PasteOperation.undo`: remove each recorded added
item id from the target; a raise aborts the loop. -/
def undoRemoveLoop : List String → ApiState → Bool × ApiState
  | [], s => (true, s)
  | itemId :: ids, s =>
      match s.remove_video_from_playlist itemId with
      | (true, s1) => undoRemoveLoop ids s1
      | (false, s1) => (false, s1)

/-- The cut-restore loop of `PasteOperation.undo`: re-add each video to the
source playlist (the returned ids are discarded, as in the source); a raise
aborts the loop. -/
def undoRestoreLoop (source : String) : List Video → ApiState → Bool × ApiState
  | [], s => (true, s)
  | v :: vs, s =>
      match s.add_video_to_playlist v.id source with
      | (some _, s1) => undoRestoreLoop source vs s1
      | (none, s1) => (false, s1)

/-- Embeds `PasteOperation.execute`: add every video to the target (appending the
returned ids to `added_item_ids` — note the list is not reset first), then,
for a cut with a source, remove every video from the source; any raise is
caught and reported as `False` with mutations kept; on success `executed`
flips to `True`. -/
def PasteOperation.execute (op : PasteOperation) (s : ApiState) :
    Bool × PasteOperation × ApiState :=
  match pasteAddLoop op.target_playlist_id op.videos op.added_item_ids s with
  | (false, acc, s1) => (false, { op with added_item_ids := acc }, s1)
  | (true, acc, s1) =>
      if op.is_cut ∧ op.source_playlist_id.isSome then
        match pasteCutRemoveLoop op.videos s1 with
        | (true, s2) => (true, { op with added_item_ids := acc, executed := true }, s2)
        | (false, s2) => (false, { op with added_item_ids := acc }, s2)
      else
        (true, { op with added_item_ids := acc, executed := true }, s1)

/-- Embeds `PasteOperation.undo`: refuse when not executed; remove every recorded
added item id (the list is not cleared afterwards), then, for a cut with a
source, re-add the originals; any raise is caught and reported as `False`
with mutations kept (`executed` stays `True`); on success `executed` flips
to `False`. -/
def PasteOperation.undo (op : PasteOperation) (s : ApiState) :
    Bool × PasteOperation × ApiState :=
  if op.executed = false then (false, op, s)
  else
    match undoRemoveLoop op.added_item_ids s with
    | (false, s1) => (false, op, s1)
    | (true, s1) =>
        if op.is_cut ∧ op.source_playlist_id.isSome then
          match undoRestoreLoop (op.source_playlist_id.getD "") op.videos s1 with
          | (true, s2) => (true, { op with executed := false }, s2)
          | (false, s2) => (false, op, s2)
        else
          (true, { op with executed := false }, s1)

/-- Embeds `operation_history.OperationStack`: two Python lists (append at the end,
`pop()` from the end, `pop(0)` from the front) and the capacity.  Operations
are duck-typed in Python; the embedding is generic in the operation type,
with the operation's `execute`/`undo` methods passed as functions that may
mutate both the operation and the surrounding state (the API client). -/
structure OperationStack (α : Type) where
  undo_stack : List α
  redo_stack : List α
  max_size : Nat
deriving Repr, DecidableEq

/-- Embeds `OperationStack.execute`: run `op.execute()`; on success append to
`undo_stack`, evict the oldest entry (`pop(0)`) when over capacity, and clear
`redo_stack`; on failure change nothing and report `False`. -/
def OperationStack.execute {α σ : Type} (doExec : α → σ → Bool × α × σ)
    (stk : OperationStack α) (op : α) (s : σ) : Bool × OperationStack α × σ :=
  match doExec op s with
  | (true, op1, s1) =>
      let u := stk.undo_stack ++ [op1]
      let u := if u.length > stk.max_size then u.drop 1 else u
      (true, { stk with undo_stack := u, redo_stack := [] }, s1)
  | (false, _, s1) => (false, stk, s1)

/-- Embeds `OperationStack.undo`: return `None` on an empty `undo_stack`; otherwise
`pop()` the top operation and run `op.undo()`; on success move it to
`redo_stack` and return it, on failure push it back onto `undo_stack` and
return `None`. -/
def OperationStack.undo {α σ : Type} (doUndo : α → σ → Bool × α × σ)
    (stk : OperationStack α) (s : σ) : Option α × OperationStack α × σ :=
  match stk.undo_stack.getLast? with
  | none => (none, stk, s)
  | some op =>
      let rest := stk.undo_stack.dropLast
      match doUndo op s with
      | (true, op1, s1) =>
          (some op1,
            { stk with undo_stack := rest, redo_stack := stk.redo_stack ++ [op1] }, s1)
      | (false, op1, s1) =>
          (none, { stk with undo_stack := rest ++ [op1] }, s1)

/-- Embeds `OperationStack.redo`: return `None` on an empty `redo_stack`; otherwise
`pop()` the top operation and run `op.execute()`; on success move it to
`undo_stack` and return it, on failure push it back onto `redo_stack` and
return `None`. -/
def OperationStack.redo {α σ : Type} (doExec : α → σ → Bool × α × σ)
    (stk : OperationStack α) (s : σ) : Option α × OperationStack α × σ :=
  match stk.redo_stack.getLast? with
  | none => (none, stk, s)
  | some op =>
      let rest := stk.redo_stack.dropLast
      match doExec op s with
      | (true, op1, s1) =>
          (some op1,
            { stk with undo_stack := stk.undo_stack ++ [op1], redo_stack := rest }, s1)
      | (false, op1, s1) =>
          (none, { stk with redo_stack := rest ++ [op1] }, s1)

/-- The pending-chord state of `YangerApp.on_key`
(`_pending_sort`, `_pending_command`, `_pending_g`, `_pending_c`). -/
structure KeyState where
  pending_sort : Bool
  pending_command : Option String
  pending_g : Bool
  pending_c : Bool
deriving Repr, DecidableEq

/-- The handler that one `on_key` invocation dispatches to. -/
inductive AppCommand where
  | sortKey (k : String)
  | deleteVideos
  | ranger (c : String)
  | newPlaylist
  | deletePlaylist
  | renameRequest
  | millerKey (k : String)
deriving Repr, DecidableEq

/-- The keys the final branch of `on_key` forwards to the miller view. -/
def millerKeys : List String :=
  ["h", "j", "k", "l", "G", "enter", "space", "d", "y", "p", "n", "N",
   "v", "V", "escape", "o", "pageup", "pagedown"]

/-- Embeds `YangerApp.on_key`: the `elif` chain over the pending-chord state.
Pending sort is checked first (a key in the sort set dispatches
`handle_sort_key`, any key clears `_pending_sort`); then a pending
double-key command (`dD` → delete videos, a doubled key → the ranger
command, anything else cancels; `_pending_command` is cleared in every
case); then the `g` and `c` prefixes; finally navigation keys go to the
miller view. -/
def onKey (st : KeyState) (k : String) : KeyState × Option AppCommand :=
  if st.pending_sort then
    ({ st with pending_sort := false },
      if k = "t" ∨ k = "d" ∨ k = "p" ∨ k = "v" ∨ k = "D" ∨ k = "escape" then
        some (AppCommand.sortKey k)
      else none)
  else
    match st.pending_command with
    | some p =>
        ({ st with pending_command := none },
          if p = "d" ∧ k = "D" then some AppCommand.deleteVideos
          else if p = k then some (AppCommand.ranger p)
          else none)
    | none =>
        if k = "g" ∧ st.pending_g = false then
          ({ st with pending_g := true }, none)
        else if st.pending_g then
          ({ st with pending_g := false },
            if k = "n" then some AppCommand.newPlaylist
            else if k = "d" then some AppCommand.deletePlaylist
            else if k = "g" then some (AppCommand.millerKey "g")
            else none)
        else if k = "c" ∧ st.pending_c = false then
          ({ st with pending_c := true }, none)
        else if st.pending_c then
          ({ st with pending_c := false },
            if k = "w" then some AppCommand.renameRequest else none)
        else if k ∈ millerKeys then (st, some (AppCommand.millerKey k))
        else (st, none)

/-- The slice of `YangerApp` state that the paste command path touches:
the clipboard, the current playlist (by id), the API client state, and the
operation stack (the paste path only ever pushes `PasteOperation`s). -/
structure AppState where
  clipboard : Clipboard
  current_playlist : Option String
  api : ApiState
  op_stack : OperationStack PasteOperation
deriving Repr, DecidableEq

/-- Outcome of `execute_ranger_command('p')`. -/
inductive RangerPasteOutcome where
  | emptyClipboard
  | noPlaylist
  | quotaPreflightFailed (need : Int) (have_ : Int)
  | pasted (success : Bool)
deriving Repr, DecidableEq

/-- Embeds `YangerApp.paste_videos`: build a `PasteOperation` from the clipboard
(videos, first item's source playlist, cut flag) and run it through
`OperationStack.execute`; on success clear the clipboard. -/
def pasteVideos (st : AppState) : Bool × AppState :=
  match st.current_playlist with
  | none => (false, st)
  | some target =>
      let videos := st.clipboard.items.map (·.video)
      let source := st.clipboard.items.head?.map (·.source_playlist_id)
      let op := mkPasteOperation videos target source
        (st.clipboard.get_operation_type = some "cut")
      match OperationStack.execute PasteOperation.execute st.op_stack op st.api with
      | (true, stk1, api1) =>
          (true, { st with clipboard := st.clipboard.clear, api := api1, op_stack := stk1 })
      | (false, stk1, api1) =>
          (false, { st with api := api1, op_stack := stk1 })

/-- The `command == 'p'` branch of `YangerApp.execute_ranger_command`:
empty-clipboard and no-playlist guards, then the quota pre-flight
(`operation_cost = 50 * len(clipboard)`, doubled for a cut; compare with
`get_quota_remaining()`), and only past the pre-flight the paste itself. -/
def executeRangerPaste (st : AppState) : RangerPasteOutcome × AppState :=
  if st.clipboard.is_empty then (RangerPasteOutcome.emptyClipboard, st)
  else
    match st.current_playlist with
    | none => (RangerPasteOutcome.noPlaylist, st)
    | some _ =>
        let cost0 : Int := 50 * st.clipboard.items.length
        let cost : Int :=
          if st.clipboard.get_operation_type = some "cut" then cost0 * 2 else cost0
        if st.api.get_quota_remaining < cost then
          (RangerPasteOutcome.quotaPreflightFailed cost st.api.get_quota_remaining, st)
        else
          let (ok, st1) := pasteVideos st
          (RangerPasteOutcome.pasted ok, st1)

/-- Outcome of `YangerApp.handle_delete_playlist`. -/
inductive DeletePlaylistOutcome where
  | noPlaylist
  | rejectedSpecial
  | confirmationShown
deriving Repr, DecidableEq

/-- Embeds `YangerApp.handle_delete_playlist` (the `gd` handler): bail out when no
playlist is selected; reject a special playlist with an error notification;
otherwise push the confirmation modal.  The function itself issues no API
call and touches no operation stack — actual deletion happens only later,
from the confirmation callback — so the API state is returned unchanged in
every branch. -/
def handleDeletePlaylist (current : Option Playlist) (api : ApiState) :
    DeletePlaylistOutcome × ApiState :=
  match current with
  | none => (DeletePlaylistOutcome.noPlaylist, api)
  | some p =>
      if p.is_special then (DeletePlaylistOutcome.rejectedSpecial, api)
      else (DeletePlaylistOutcome.confirmationShown, api)

/-- The slice of `miller_view.VideoColumn` state that the visual mode
touches: the video list (marks live on the videos), the cursor, and the
visual-mode fields. -/
structure VideoColumn where
  videos : List Video
  selected_index : Nat
  visual_mode : Bool
  visual_start_index : Int
  visual_unmark_mode : Bool
deriving Repr, DecidableEq

/-- Embeds `VideoColumn.enter_visual_mode`: record the anchor at the cursor. -/
def VideoColumn.enter_visual_mode (col : VideoColumn) (unmark_mode : Bool) :
    VideoColumn :=
  { col with
      visual_mode := true
      visual_start_index := (col.selected_index : Int)
      visual_unmark_mode := unmark_mode }

/-- The marking loop of `exit_visual_mode`: `for i in range(start, end+1): if
i < len(videos): videos[i].is_marked = mark`, written as a walk over the
list carrying the current index. -/
def markRange (start stop : Int) (mark : Bool) : Nat → List Video → List Video
  | _, [] => []
  | i, v :: vs =>
      (if start ≤ (i : Int) ∧ (i : Int) ≤ stop then { v with is_marked := mark }
       else v) :: markRange start stop mark (i + 1) vs

/-- Embeds `VideoColumn.exit_visual_mode`: when in visual mode with
`mark_selection` and a recorded anchor, set `is_marked` to
`not visual_unmark_mode` on the inclusive range between anchor and cursor;
then clear the visual-mode state regardless. -/
def VideoColumn.exit_visual_mode (col : VideoColumn) (mark_selection : Bool) :
    VideoColumn :=
  let videos1 :=
    if col.visual_mode ∧ mark_selection ∧ 0 ≤ col.visual_start_index then
      markRange (min col.visual_start_index (col.selected_index : Int))
                (max col.visual_start_index (col.selected_index : Int))
                (! col.visual_unmark_mode) 0 col.videos
    else col.videos
  { col with
      videos := videos1
      visual_mode := false
      visual_start_index := -1
      visual_unmark_mode := false }

/-- The mark at index `i` of a column (`false` out of range); the mark set
of the column is the set of indices at which this is `true`. -/
def VideoColumn.markedAt (col : VideoColumn) (i : Nat) : Bool :=
  (col.videos[i]?.map (·.is_marked)).getD false

/-- The last element of `l ++ [a]` is `a`. -/
theorem lastOfAppendSingleton {α : Type} (l : List α) (a : α) :
    (l ++ [a]).getLast? = some a :=
  List.getLast?_concat l

/-- Dropping the oldest entry of a freshly pushed stack keeps the pushed
entry on top. -/
theorem lastOfDropAppendSingleton {α : Type} (l : List α) (a : α) (h : l ≠ []) :
    ((l ++ [a]).drop 1).getLast? = some a := by
  cases l with
  | nil => exact absurd rfl h
  | cons b t =>
      rw [List.cons_append, List.drop_one, List.tail_cons]
      exact lastOfAppendSingleton t a

/-- C9: the quota counter never exceeds the daily limit.  Every successful
`_track_quota` call adds exactly the operation's cost and lands at or below
`daily_quota`; the call raises `QuotaExceededError` (returns `none`, the
caller's state untouched) precisely when recording the cost would push
`quota_used` above `daily_quota`. -/
theorem track_quota_invariant (s : ApiState) (operation : String) (count : Nat) :
    (∀ s1, s.track_quota operation count = some s1 →
        s1.quota_used = s.quota_used + quotaCost operation * count ∧
        s1.daily_quota = s.daily_quota ∧
        s1.quota_used ≤ s1.daily_quota) ∧
    (s.track_quota operation count = none ↔
        s.daily_quota < s.quota_used + quotaCost operation * count) := by
  by_cases hgt : s.daily_quota < s.quota_used + quotaCost operation * count
  · constructor
    · intro s1 h
      unfold ApiState.track_quota at h
      simp [hgt] at h
    · unfold ApiState.track_quota
      simp [hgt]
  · constructor
    · intro s1 h
      unfold ApiState.track_quota at h
      simp only [gt_iff_lt, hgt, if_false, Option.some.injEq] at h
      subst h
      refine ⟨rfl, rfl, ?_⟩
      simp only
      omega
    · unfold ApiState.track_quota
      simp [hgt]

/-- C9 witness: a concrete `_track_quota` call (one `playlistItems.insert`
on a fresh 10000-unit client) lands at 50 ≤ 10000 and is not a raise. -/
theorem track_quota_invariant_witness :
    (∀ s1, ApiState.track_quota ⟨10000, 0, [], 0, []⟩ "playlistItems.insert" 1 = some s1 →
        s1.quota_used = 0 + quotaCost "playlistItems.insert" * 1 ∧
        s1.daily_quota = 10000 ∧
        s1.quota_used ≤ s1.daily_quota) ∧
    (ApiState.track_quota ⟨10000, 0, [], 0, []⟩ "playlistItems.insert" 1 = none ↔
        10000 < 0 + quotaCost "playlistItems.insert" * 1) :=
  track_quota_invariant ⟨10000, 0, [], 0, []⟩ "playlistItems.insert" 1

/-- C10: `undo()` on an empty undo stack and `redo()` on an empty redo stack
return `None` and change nothing; the result does not depend on the
operations' `undo`/`execute` functions at all (they are never invoked), and
the surrounding state `s` is returned untouched. -/
theorem undo_redo_empty_noop (α σ : Type) (doUndo doExec : α → σ → Bool × α × σ)
    (stk : OperationStack α) (s : σ) :
    (stk.undo_stack = [] → OperationStack.undo doUndo stk s = (none, stk, s)) ∧
    (stk.redo_stack = [] → OperationStack.redo doExec stk s = (none, stk, s)) := by
  constructor
  · intro h
    unfold OperationStack.undo
    rw [h]
    rfl
  · intro h
    unfold OperationStack.redo
    rw [h]
    rfl

/-- C10 witness: concrete empty stack, with an `undo`/`execute` function
that would be observable if it were ever invoked. -/
theorem undo_redo_empty_noop_witness :
    OperationStack.undo (fun (n : Nat) (u : Unit) => (true, n + 1, u))
        ⟨[], [], 100⟩ () = (none, ⟨[], [], 100⟩, ()) ∧
    OperationStack.redo (fun (n : Nat) (u : Unit) => (true, n + 1, u))
        ⟨[], [], 100⟩ () = (none, ⟨[], [], 100⟩, ()) :=
  ⟨(undo_redo_empty_noop Nat Unit (fun n u => (true, n + 1, u))
      (fun n u => (true, n + 1, u)) ⟨[], [], 100⟩ ()).1 rfl,
   (undo_redo_empty_noop Nat Unit (fun n u => (true, n + 1, u))
      (fun n u => (true, n + 1, u)) ⟨[], [], 100⟩ ()).2 rfl⟩

/-- C3: `OperationStack.execute` on a successful `op.execute()` pushes the
operation on top of the undo stack and unconditionally empties the redo
stack (whatever it held); on a failed `op.execute()` it returns the failure
to the caller with both stacks exactly as they were.  (The capacity is
positive, as every stack the program builds — default 100.) -/
theorem opstack_execute_spec (α σ : Type) (doExec : α → σ → Bool × α × σ)
    (stk : OperationStack α) (op : α) (s : σ) (hcap : 0 < stk.max_size) :
    (∀ op1 s1, doExec op s = (true, op1, s1) →
        (OperationStack.execute doExec stk op s).1 = true ∧
        (OperationStack.execute doExec stk op s).2.1.redo_stack = [] ∧
        (OperationStack.execute doExec stk op s).2.1.undo_stack.getLast? = some op1 ∧
        (OperationStack.execute doExec stk op s).2.2 = s1) ∧
    (∀ op1 s1, doExec op s = (false, op1, s1) →
        OperationStack.execute doExec stk op s = (false, stk, s1)) := by
  constructor
  · intro op1 s1 h
    unfold OperationStack.execute
    rw [h]
    refine ⟨rfl, rfl, ?_, rfl⟩
    simp only
    split
    · rename_i hlen
      refine lastOfDropAppendSingleton stk.undo_stack op1 ?_
      intro hnil
      rw [hnil] at hlen
      simp at hlen
      omega
    · exact lastOfAppendSingleton stk.undo_stack op1
  · intro op1 s1 h
    unfold OperationStack.execute
    rw [h]

/-- C3 witness: a one-element always-succeeding operation pushed onto a
capacity-100 stack whose redo stack is non-empty from a prior undo. -/
theorem opstack_execute_spec_witness :
    ((OperationStack.execute (fun (n : Nat) (u : Unit) => (true, n, u))
        ⟨[7], [9], 100⟩ 5 ()).1 = true ∧
     (OperationStack.execute (fun (n : Nat) (u : Unit) => (true, n, u))
        ⟨[7], [9], 100⟩ 5 ()).2.1.redo_stack = [] ∧
     (OperationStack.execute (fun (n : Nat) (u : Unit) => (true, n, u))
        ⟨[7], [9], 100⟩ 5 ()).2.1.undo_stack.getLast? = some 5 ∧
     (OperationStack.execute (fun (n : Nat) (u : Unit) => (true, n, u))
        ⟨[7], [9], 100⟩ 5 ()).2.2 = ()) :=
  (opstack_execute_spec Nat Unit (fun n u => (true, n, u))
    ⟨[7], [9], 100⟩ 5 () (by decide)).1 5 () rfl

/-- C4: when the popped operation's `undo()` fails, `OperationStack.undo`
pushes the operation back on top of the undo stack (the entry is preserved,
the redo stack untouched) and returns `None`; symmetrically, when the popped
operation's `execute()` fails during `redo()`, the operation goes back on
top of the redo stack (undo stack untouched) and `None` is returned. -/
theorem opstack_failed_undo_redo_preserved (α σ : Type)
    (doUndo doExec : α → σ → Bool × α × σ) (stk : OperationStack α) (s : σ) (op : α) :
    (stk.undo_stack.getLast? = some op →
      ∀ op1 s1, doUndo op s = (false, op1, s1) →
        OperationStack.undo doUndo stk s =
          (none, { stk with undo_stack := stk.undo_stack.dropLast ++ [op1] }, s1)) ∧
    (stk.redo_stack.getLast? = some op →
      ∀ op1 s1, doExec op s = (false, op1, s1) →
        OperationStack.redo doExec stk s =
          (none, { stk with redo_stack := stk.redo_stack.dropLast ++ [op1] }, s1)) := by
  constructor
  · intro hlast op1 s1 h
    unfold OperationStack.undo
    rw [hlast]
    dsimp only
    rw [h]
  · intro hlast op1 s1 h
    unfold OperationStack.redo
    rw [hlast]
    dsimp only
    rw [h]

/-- C4 witness: a concrete one-entry undo stack and one-entry redo stack
whose operation always fails; the entry survives at the top in both
directions. -/
theorem opstack_failed_undo_redo_preserved_witness :
    (OperationStack.undo (fun (n : Nat) (u : Unit) => (false, n, u))
        ⟨[3], [4], 100⟩ () = (none, ⟨[3], [4], 100⟩, ()) ∧
     OperationStack.redo (fun (n : Nat) (u : Unit) => (false, n, u))
        ⟨[3], [4], 100⟩ () = (none, ⟨[3], [4], 100⟩, ())) := by
  have h := opstack_failed_undo_redo_preserved Nat Unit
    (fun n u => (false, n, u)) (fun n u => (false, n, u)) ⟨[3], [4], 100⟩ () 3
  have h1 := h.1 rfl 3 () rfl
  have h2 := (opstack_failed_undo_redo_preserved Nat Unit
    (fun n u => (false, n, u)) (fun n u => (false, n, u)) ⟨[3], [4], 100⟩ () 4).2
    rfl 4 () rfl
  exact ⟨h1, h2⟩

/-- An element delivered by `getLast?` is a member of the list. -/
theorem memOfGetLast {α : Type} {l : List α} {a : α} (h : l.getLast? = some a) :
    a ∈ l := by
  induction l with
  | nil => cases h
  | cons b t ih =>
      cases t with
      | nil =>
          cases h
          exact List.mem_singleton_self b
      | cons c u =>
          exact List.mem_cons_of_mem b (ih h)

/-- Dropping the front of a freshly pushed list keeps everything but the
oldest entry, in order. -/
theorem dropOneAppendSingleton {α : Type} (l : List α) (a : α) (h : l ≠ []) :
    (l ++ [a]).drop 1 = l.tail ++ [a] := by
  cases l with
  | nil => exact absurd rfl h
  | cons b t => rfl

/-- The bounded-capacity invariant of an `OperationStack`: the two stacks
together never hold more than `max_size` entries (so in particular the undo
stack never does). -/
def StackInv {α : Type} (stk : OperationStack α) : Prop :=
  stk.undo_stack.length + stk.redo_stack.length ≤ stk.max_size

/-- Executing preserves the capacity invariant. -/
theorem stackInv_execute {α σ : Type} (doExec : α → σ → Bool × α × σ)
    (stk : OperationStack α) (op : α) (s : σ) (hinv : StackInv stk) :
    StackInv (OperationStack.execute doExec stk op s).2.1 := by
  unfold StackInv at *
  unfold OperationStack.execute
  rcases hdo : doExec op s with ⟨ok, op1, s1⟩
  cases ok
  · exact hinv
  · simp only
    split
    · rename_i hlen
      simp only [List.length_nil, List.length_drop, List.length_append,
        List.length_singleton] at *
      omega
    · rename_i hlen
      simp only [List.length_nil, List.length_append, List.length_singleton] at *
      omega

/-- Undoing preserves the capacity invariant. -/
theorem stackInv_undo {α σ : Type} (doUndo : α → σ → Bool × α × σ)
    (stk : OperationStack α) (s : σ) (hinv : StackInv stk) :
    StackInv (OperationStack.undo doUndo stk s).2.1 := by
  unfold StackInv at *
  unfold OperationStack.undo
  rcases hl : stk.undo_stack.getLast? with _ | op
  · exact hinv
  · have hne : stk.undo_stack ≠ [] := by
      intro h
      rw [h] at hl
      cases hl
    have hlen : 0 < stk.undo_stack.length := List.length_pos.mpr hne
    simp only
    rcases hdo : doUndo op s with ⟨ok, op1, s1⟩
    cases ok
    · simp only [List.length_append, List.length_singleton, List.length_dropLast]
      omega
    · simp only [List.length_append, List.length_singleton, List.length_dropLast]
      omega

/-- Redoing preserves the capacity invariant. -/
theorem stackInv_redo {α σ : Type} (doExec : α → σ → Bool × α × σ)
    (stk : OperationStack α) (s : σ) (hinv : StackInv stk) :
    StackInv (OperationStack.redo doExec stk s).2.1 := by
  unfold StackInv at *
  unfold OperationStack.redo
  rcases hl : stk.redo_stack.getLast? with _ | op
  · exact hinv
  · have hne : stk.redo_stack ≠ [] := by
      intro h
      rw [h] at hl
      cases hl
    have hlen : 0 < stk.redo_stack.length := List.length_pos.mpr hne
    simp only
    rcases hdo : doExec op s with ⟨ok, op1, s1⟩
    cases ok
    · simp only [List.length_append, List.length_singleton, List.length_dropLast]
      omega
    · simp only [List.length_append, List.length_singleton, List.length_dropLast]
      omega

/-- The always-succeeding, self-returning operation used for the
capacity-eviction scenario: each operation is identified by a number (its
description — all distinct). -/
def natOpStep : Nat → Unit → Bool × Nat × Unit := fun op u => (true, op, u)

/-- A run of sequential `OperationStack.execute` calls. -/
def execAllNat (ops : List Nat) (stk : OperationStack Nat) : OperationStack Nat :=
  ops.foldl (fun acc op => (OperationStack.execute natOpStep acc op ()).2.1) stk

/-- The stack after 101 sequential successful operations (numbered 0–100) on
an initially empty capacity-100 stack. -/
def c5FinalStack : OperationStack Nat := execAllNat (List.range 101) ⟨[], [], 100⟩

/-- A sequence of `k` `undo()` calls, collecting the operations the calls
return. -/
def iterUndoNat : Nat → OperationStack Nat → List Nat × OperationStack Nat
  | 0, stk => ([], stk)
  | k + 1, stk =>
      match OperationStack.undo natOpStep stk () with
      | (some op, stk1, _) =>
          let rest := iterUndoNat k stk1
          (op :: rest.1, rest.2)
      | (none, stk1, _) => iterUndoNat k stk1

/-- How `undo` behaves for the scenario operations: nothing on an empty
stack, otherwise the popped top moves to the redo stack. -/
theorem undoNat_cases (stk : OperationStack Nat) :
    (stk.undo_stack.getLast? = none ∧
      OperationStack.undo natOpStep stk () = (none, stk, ())) ∨
    (∃ op, stk.undo_stack.getLast? = some op ∧
      OperationStack.undo natOpStep stk () =
        (some op, { stk with undo_stack := stk.undo_stack.dropLast,
                             redo_stack := stk.redo_stack ++ [op] }, ())) := by
  rcases hl : stk.undo_stack.getLast? with _ | op
  · left
    refine ⟨rfl, ?_⟩
    unfold OperationStack.undo
    rw [hl]
  · right
    refine ⟨op, rfl, ?_⟩
    unfold OperationStack.undo
    rw [hl]
    dsimp only [natOpStep]

/-- An operation value absent from both stacks is never returned by any
sequence of `undo()` calls. -/
theorem iterUndoNat_avoids (k : Nat) :
    ∀ stk : OperationStack Nat, 0 ∉ stk.undo_stack → 0 ∉ stk.redo_stack →
      0 ∉ (iterUndoNat k stk).1 := by
  induction k with
  | zero =>
      intro stk h1 h2
      simp [iterUndoNat]
  | succ k ih =>
      intro stk h1 h2
      rcases undoNat_cases stk with ⟨hl, hu⟩ | ⟨op, hl, hu⟩
      · unfold iterUndoNat
        rw [hu]
        exact ih stk h1 h2
      · have hop : op ∈ stk.undo_stack := memOfGetLast hl
        have hopne : op ≠ 0 := by
          intro h
          rw [h] at hop
          exact h1 hop
        unfold iterUndoNat
        rw [hu]
        simp only [List.mem_cons, not_or]
        refine ⟨fun h => hopne h.symm, ?_⟩
        refine ih _ ?_ ?_
        · intro h
          exact h1 (List.dropLast_subset _ h)
        · intro h
          rcases List.mem_append.mp h with h | h
          · exact h2 h
          · rcases List.mem_singleton.mp h with h
            exact hopne h.symm

/-- C5: the bounded history.  (1) The capacity invariant — at most
`max_size` entries across the two stacks, hence at most `max_size` undo
entries — is preserved by `execute`, `undo` and `redo`.  (2) A successful
`execute` on an undo stack already at (positive) capacity evicts exactly the
oldest entry.  (3) Scenario: after 101 sequential successful operations
(numbered 0–100, all with distinct descriptions) on an empty capacity-100
stack, the oldest entry (number 0) has been evicted — the undo stack holds
exactly 1–100 — and no sequence of up to 100 subsequent `undo()` calls ever
returns it. -/
theorem opstack_capacity_bound :
    (∀ (α σ : Type) (doExec doUndo : α → σ → Bool × α × σ)
        (stk : OperationStack α) (op : α) (s : σ), StackInv stk →
        StackInv (OperationStack.execute doExec stk op s).2.1 ∧
        StackInv (OperationStack.undo doUndo stk s).2.1 ∧
        StackInv (OperationStack.redo doExec stk s).2.1 ∧
        (OperationStack.execute doExec stk op s).2.1.undo_stack.length ≤ stk.max_size) ∧
    (∀ (α σ : Type) (doExec : α → σ → Bool × α × σ)
        (stk : OperationStack α) (op op1 : α) (s s1 : σ), 0 < stk.max_size →
        stk.undo_stack.length = stk.max_size →
        doExec op s = (true, op1, s1) →
        (OperationStack.execute doExec stk op s).2.1.undo_stack =
          stk.undo_stack.tail ++ [op1]) ∧
    ((c5FinalStack.undo_stack = (List.range 101).drop 1 ∧
        c5FinalStack.redo_stack = []) ∧
      ∀ k, k ≤ 100 → 0 ∉ (iterUndoNat k c5FinalStack).1) := by
  refine ⟨?_, ?_, ⟨?_, ?_⟩, ?_⟩
  · intro α σ doExec doUndo stk op s hinv
    have he := stackInv_execute doExec stk op s hinv
    refine ⟨he, stackInv_undo doUndo stk s hinv, stackInv_redo doExec stk s hinv, ?_⟩
    have hmax : (OperationStack.execute doExec stk op s).2.1.max_size = stk.max_size := by
      unfold OperationStack.execute
      rcases doExec op s with ⟨ok, op1, s1⟩
      cases ok <;> rfl
    unfold StackInv at he
    omega
  · intro α σ doExec stk op op1 s s1 hcap hfull hdo
    unfold OperationStack.execute
    rw [hdo]
    simp only
    have hne : stk.undo_stack ≠ [] := by
      intro h
      rw [h] at hfull
      simp at hfull
      omega
    rw [if_pos]
    · exact dropOneAppendSingleton stk.undo_stack op1 hne
    · simp only [List.length_append, List.length_singleton]
      omega
  · set_option maxRecDepth 8000 in decide
  · set_option maxRecDepth 8000 in decide
  · intro k hk
    refine iterUndoNat_avoids k c5FinalStack ?_ ?_
    · set_option maxRecDepth 8000 in decide
    · set_option maxRecDepth 8000 in decide

/-- C5 witness: the invariant part instantiated at a concrete full stack and
the scenario at the full 100 undo calls. -/
theorem opstack_capacity_bound_witness :
    (StackInv (OperationStack.execute (fun (n : Nat) (u : Unit) => (true, n, u))
        ⟨[1, 2], [], 2⟩ 9 ()).2.1 ∧
      (OperationStack.execute (fun (n : Nat) (u : Unit) => (true, n, u))
        ⟨[1, 2], [], 2⟩ 9 ()).2.1.undo_stack.length ≤ 2) ∧
    (OperationStack.execute (fun (n : Nat) (u : Unit) => (true, n, u))
        ⟨[1, 2], [], 2⟩ 9 ()).2.1.undo_stack = [2, 9] ∧
    0 ∉ (iterUndoNat 100 c5FinalStack).1 := by
  have h := opstack_capacity_bound
  have h1 := h.1 Nat Unit (fun n u => (true, n, u)) (fun n u => (true, n, u))
    ⟨[1, 2], [], 2⟩ 9 () (by unfold StackInv; decide)
  have h2 := h.2.1 Nat Unit (fun n u => (true, n, u)) ⟨[1, 2], [], 2⟩ 9 9 () ()
    (by decide) (by decide) rfl
  have h3 := h.2.2.2 100 (by decide)
  exact ⟨⟨h1.1, h1.2.2.2⟩, h2, h3⟩

/-- C6: with a `'d'` prefix pending (the `PendingPrefix('d')` state of the
interpreter: `_pending_command = 'd'`, no sort selection pending), the next
key `'d'` dispatches the cut command (`execute_ranger_command('d')`, i.e.
`CutSelection`), the key `'D'` dispatches the delete-videos request
(`handle_delete_videos`, i.e. `DeleteSelectionRequest`), and any other key
dispatches nothing; in every case the pending prefix is cleared before the
next key is interpreted. -/
theorem pending_d_dispatch (st : KeyState) (k : String)
    (hsort : st.pending_sort = false) (hpend : st.pending_command = some "d") :
    (onKey st k).1.pending_command = none ∧
    (onKey st k).2 =
      (if k = "D" then some AppCommand.deleteVideos
       else if k = "d" then some (AppCommand.ranger "d")
       else none) := by
  unfold onKey
  rw [hsort, hpend]
  by_cases hD : k = "D"
  · subst hD
    simp
  · by_cases hd : k = "d"
    · subst hd
      simp
    · have hd2 : ¬("d" = k) := fun h => hd h.symm
      simp [hD, hd, hd2]

/-- C6 witness: the three kinds of key from the concrete pending-`'d'` state
(no other prefix active). -/
theorem pending_d_dispatch_witness :
    ((onKey ⟨false, some "d", false, false⟩ "d").1.pending_command = none ∧
      (onKey ⟨false, some "d", false, false⟩ "d").2 = some (AppCommand.ranger "d")) ∧
    ((onKey ⟨false, some "d", false, false⟩ "D").1.pending_command = none ∧
      (onKey ⟨false, some "d", false, false⟩ "D").2 = some AppCommand.deleteVideos) ∧
    ((onKey ⟨false, some "d", false, false⟩ "x").1.pending_command = none ∧
      (onKey ⟨false, some "d", false, false⟩ "x").2 = none) := by
  have h1 := pending_d_dispatch ⟨false, some "d", false, false⟩ "d" rfl rfl
  have h2 := pending_d_dispatch ⟨false, some "d", false, false⟩ "D" rfl rfl
  have h3 := pending_d_dispatch ⟨false, some "d", false, false⟩ "x" rfl rfl
  refine ⟨⟨h1.1, ?_⟩, ⟨h2.1, ?_⟩, ⟨h3.1, ?_⟩⟩
  · rw [h1.2]
    rfl
  · rw [h2.2]
    rfl
  · rw [h3.2]
    rfl

/-- C8: the `g`,`d` chord from the idle interpreter state emits the
delete-container request and nothing before it, and
`handle_delete_playlist` on a current playlist whose mutable flag is off
(`is_special = True`, the flag every special, virtual-imported and
system playlist of the app carries) rejects the request immediately: no
confirmation modal, hence no operation can reach the `OperationStack`, and
the API state — quota, remote memberships, issued calls — is returned
untouched. -/
theorem gd_special_playlist_rejected (st : KeyState) (p : Playlist) (api : ApiState)
    (hidle : st = ⟨false, none, false, false⟩) (hspecial : p.is_special = true) :
    (onKey st "g").2 = none ∧
    (onKey st "g").1 = ⟨false, none, true, false⟩ ∧
    (onKey ⟨false, none, true, false⟩ "d").2 = some AppCommand.deletePlaylist ∧
    (onKey ⟨false, none, true, false⟩ "d").1.pending_g = false ∧
    handleDeletePlaylist (some p) api = (DeletePlaylistOutcome.rejectedSpecial, api) := by
  subst hidle
  refine ⟨rfl, rfl, rfl, rfl, ?_⟩
  unfold handleDeletePlaylist
  dsimp only
  simp [hspecial]

/-- C8 witness: concrete idle state and the Watch Later special playlist on
a fresh API client. -/
theorem gd_special_playlist_rejected_witness :
    (onKey ⟨false, none, false, false⟩ "g").2 = none ∧
    (onKey ⟨false, none, false, false⟩ "g").1 = ⟨false, none, true, false⟩ ∧
    (onKey ⟨false, none, true, false⟩ "d").2 = some AppCommand.deletePlaylist ∧
    (onKey ⟨false, none, true, false⟩ "d").1.pending_g = false ∧
    handleDeletePlaylist (some ⟨"WL", "Watch Later", true, false⟩) ⟨10000, 0, [], 0, []⟩ =
      (DeletePlaylistOutcome.rejectedSpecial, ⟨10000, 0, [], 0, []⟩) :=
  gd_special_playlist_rejected ⟨false, none, false, false⟩
    ⟨"WL", "Watch Later", true, false⟩ ⟨10000, 0, [], 0, []⟩ rfl rfl

/-- C2: a paste command that reaches the quota pre-flight (non-empty
clipboard, a current playlist) and fails it — remaining quota strictly below
`50 * len(clipboard)`, doubled for a cut clipboard — returns the
`QuotaPreflightFailed` outcome with the whole application state unchanged:
the API call log, the quota counter, the remote memberships of source and
target containers, the clipboard and the operation stack are all exactly as
before, so zero RemoteAPI calls were issued and no quota was spent. -/
theorem paste_preflight_failure (st : AppState) (target : String)
    (hne : st.clipboard.is_empty = false)
    (hpl : st.current_playlist = some target)
    (hquota : st.api.get_quota_remaining <
      (if st.clipboard.get_operation_type = some "cut"
       then (50 * st.clipboard.items.length : Int) * 2
       else (50 * st.clipboard.items.length : Int))) :
    executeRangerPaste st =
      (RangerPasteOutcome.quotaPreflightFailed
        (if st.clipboard.get_operation_type = some "cut"
         then (50 * st.clipboard.items.length : Int) * 2
         else (50 * st.clipboard.items.length : Int))
        st.api.get_quota_remaining, st) := by
  unfold executeRangerPaste
  rw [hne, hpl]
  dsimp only
  rw [if_pos hquota]
  simp

/-- The three videos of the C2 scenario, cut from container `A`. -/
def c2Videos : List Video :=
  [⟨"v1", "pi1", "t1", false⟩, ⟨"v2", "pi2", "t2", false⟩, ⟨"v3", "pi3", "t3", false⟩]

/-- The C2 scenario state: a 3-item cut clipboard from `A`, current
container `B`, and remaining quota `2 × 50 − 1 = 99` (9901 of 10000 used);
the remote holds the three items in `A`. -/
def c2State : AppState :=
  { clipboard := Clipboard.cut ⟨[]⟩ c2Videos "A"
    current_playlist := some "B"
    api :=
      { daily_quota := 10000
        quota_used := 9901
        items := [⟨"pi1", "v1", "A"⟩, ⟨"pi2", "v2", "A"⟩, ⟨"pi3", "v3", "A"⟩]
        next_item_id := 0
        calls := [] }
    op_stack := ⟨[], [], 100⟩ }

/-- C2 witness: the spec scenario.  Pasting the 3-item cut clipboard into
`B` with 99 quota units remaining (cost 300) fails pre-flight and the state
— including container `A`'s and `B`'s memberships and the empty call log —
is byte-identical. -/
theorem paste_preflight_failure_witness :
    executeRangerPaste c2State =
      (RangerPasteOutcome.quotaPreflightFailed 300 99, c2State) := by
  have h := paste_preflight_failure c2State "B" rfl rfl (by decide)
  simpa using h

/-- Indexing the marking loop: entry `j` of the walk started at index `i`
is entry `j` of the original list, marked when `i + j` lies in the range. -/
theorem markRange_getElem (start stop : Int) (mark : Bool) :
    ∀ (l : List Video) (i j : Nat),
      (markRange start stop mark i l)[j]? =
        l[j]?.map (fun v =>
          if start ≤ ((i + j : Nat) : Int) ∧ ((i + j : Nat) : Int) ≤ stop
          then { v with is_marked := mark } else v) := by
  intro l
  induction l with
  | nil =>
      intro i j
      simp [markRange]
  | cons v vs ih =>
      intro i j
      cases j with
      | zero => simp [markRange]
      | succ j =>
          have harith : i + 1 + j = i + (j + 1) := by omega
          simp only [markRange, List.getElem?_cons_succ]
          rw [ih (i + 1) j, harith]

/-- C7: entering visual mode with `unmark_mode = False` at anchor `a` (the
cursor), moving the cursor to `b`, and exiting with `mark_selection = True`
marks exactly the inclusive range between `a` and `b` on top of the
previously marked indices — the resulting mark set is
`[min a b, max a b] ∪ previous` — and clears the visual-mode state. -/
theorem visual_commit_union (col : VideoColumn) (b : Nat)
    (ha : col.selected_index < col.videos.length) (hb : b < col.videos.length) :
    (VideoColumn.exit_visual_mode
        { col.enter_visual_mode false with selected_index := b } true).visual_mode = false ∧
    (VideoColumn.exit_visual_mode
        { col.enter_visual_mode false with selected_index := b } true).visual_start_index = -1 ∧
    (VideoColumn.exit_visual_mode
        { col.enter_visual_mode false with selected_index := b } true).visual_unmark_mode = false ∧
    (VideoColumn.exit_visual_mode
        { col.enter_visual_mode false with selected_index := b } true).videos.length =
      col.videos.length ∧
    ∀ i, i < col.videos.length →
      ((VideoColumn.exit_visual_mode
          { col.enter_visual_mode false with selected_index := b } true).markedAt i = true ↔
        ((min col.selected_index b ≤ i ∧ i ≤ max col.selected_index b) ∨
          col.markedAt i = true)) := by
  set a := col.selected_index with hadef
  have hcol3 : VideoColumn.exit_visual_mode
      { col.enter_visual_mode false with selected_index := b } true =
      { col with
          videos := markRange (min (a : Int) (b : Int)) (max (a : Int) (b : Int))
            true 0 col.videos
          selected_index := b
          visual_mode := false
          visual_start_index := -1
          visual_unmark_mode := false } := by
    unfold VideoColumn.exit_visual_mode VideoColumn.enter_visual_mode
    simp only
    rw [if_pos]
    · rfl
    · exact ⟨by trivial, by trivial, Int.natCast_nonneg a⟩
  rw [hcol3]
  refine ⟨rfl, rfl, rfl, ?_, ?_⟩
  · simp only
    generalize 0 = i0
    generalize col.videos = l
    induction l generalizing i0 with
    | nil => rfl
    | cons v vs ih => simp [markRange, ih]
  · intro i hi
    unfold VideoColumn.markedAt
    simp only
    rw [markRange_getElem]
    rcases hv : col.videos[i]? with _ | v
    · rw [List.getElem?_eq_none_iff] at hv
      omega
    · have hcast : (min (a : Int) (b : Int) ≤ (i : Int) ∧ (i : Int) ≤ max (a : Int) (b : Int)) ↔
          (min a b ≤ i ∧ i ≤ max a b) := by
        rw [← Nat.cast_min, ← Nat.cast_max]
        constructor
        · intro h
          exact ⟨Int.ofNat_le.mp h.1, Int.ofNat_le.mp h.2⟩
        · intro h
          exact ⟨Int.ofNat_le.mpr h.1, Int.ofNat_le.mpr h.2⟩
      simp only [Option.map_some', Option.getD_some, Nat.zero_add]
      by_cases hcond : min a b ≤ i ∧ i ≤ max a b
      · have hcondInt := hcast.mpr hcond
        rw [if_pos hcondInt]
        exact ⟨fun _ => Or.inl hcond, fun _ => rfl⟩
      · have hcondInt : ¬(min (a : Int) (b : Int) ≤ (i : Int) ∧
            (i : Int) ≤ max (a : Int) (b : Int)) := fun h => hcond (hcast.mp h)
        rw [if_neg hcondInt]
        exact ⟨fun hm => Or.inr hm, fun hor => hor.elim (fun hc => absurd hc hcond) id⟩

/-- The concrete column of the C7 witness: four videos, video 3 already
marked, cursor (anchor) at 1. -/
def c7Column : VideoColumn :=
  ⟨[⟨"v0", "p0", "t0", false⟩, ⟨"v1", "p1", "t1", false⟩,
    ⟨"v2", "p2", "t2", false⟩, ⟨"v3", "p3", "t3", true⟩], 1, false, -1, false⟩

/-- C7 witness: on `c7Column`, visual range from anchor 1 to cursor 2,
committed: the mark set becomes exactly `[1, 2]` joined with the
pre-existing mark on 3, and the visual state is cleared. -/
theorem visual_commit_union_witness :
    (VideoColumn.exit_visual_mode
        { c7Column.enter_visual_mode false with selected_index := 2 } true).visual_mode
      = false ∧
    ∀ i, i < 4 →
      ((VideoColumn.exit_visual_mode
          { c7Column.enter_visual_mode false with selected_index := 2 } true).markedAt i
        = true ↔ ((1 ≤ i ∧ i ≤ 2) ∨ i = 3)) := by
  have h := visual_commit_union c7Column 2 (by decide) (by decide)
  refine ⟨h.1, ?_⟩
  intro i hi
  have h2 := h.2.2.2.2 i (by simpa [c7Column] using hi)
  rw [h2]
  interval_cases i <;> decide

/-- The single copied video of the C1 run (it lives in container `A` under
playlist-item id `srcItem1`). -/
def c1Video : Video := ⟨"v1", "srcItem1", "t1", false⟩

/-- The initial API state of the C1 run: fresh 10000-unit quota, container
`A` holding the video, no calls issued. -/
def c1Api0 : ApiState := ⟨10000, 0, [⟨"srcItem1", "v1", "A"⟩], 0, []⟩

/-- The C1 paste operation: copy (`is_cut = False`) one video into `B`. -/
def c1Op0 : PasteOperation := mkPasteOperation [c1Video] "B" (some "A") false

/-- Step 1 of the C1 run: `OperationStack.execute` of the paste. -/
def c1S1 : Bool × OperationStack PasteOperation × ApiState :=
  OperationStack.execute PasteOperation.execute ⟨[], [], 100⟩ c1Op0 c1Api0

/-- Step 2: `undo()`. -/
def c1S2 : Option PasteOperation × OperationStack PasteOperation × ApiState :=
  OperationStack.undo PasteOperation.undo c1S1.2.1 c1S1.2.2

/-- Step 3: `redo()` (re-runs `PasteOperation.execute`). -/
def c1S3 : Option PasteOperation × OperationStack PasteOperation × ApiState :=
  OperationStack.redo PasteOperation.execute c1S2.2.1 c1S2.2.2

/-- Step 4: `undo()` again, after the redo. -/
def c1S4 : Option PasteOperation × OperationStack PasteOperation × ApiState :=
  OperationStack.undo PasteOperation.undo c1S3.2.1 c1S3.2.2

/-- C1: the paste/undo/redo/undo run evaluated on the code.  The first
execute, undo and redo all succeed, and the redo leaves
`added_item_ids = ["item0", "item1"]`: the id recorded by the first execute
was never cleared, so after the redo the operation's recorded additions are
a superset of what that execute added.  The second `undo()` then issues a
remote delete for the stale id `"item0"` (a call the re-execute never
added), which fails (404), so the undo returns `None`/failure, `executed`
stays `True`, and the item `"item1"` that the redo actually added is still
in container `B` — the undo after a successful redo does not (and can
never) remove exactly that execute's additions.  The call log shows the
stale delete issued twice. -/
theorem paste_undo_after_redo_diverges :
    c1S1.1 = true ∧
    c1S2.1.isSome = true ∧
    c1S3.1.isSome = true ∧
    (c1S3.2.1.undo_stack.getLast?.map (·.added_item_ids)) = some ["item0", "item1"] ∧
    c1S4.1 = none ∧
    (c1S4.2.1.undo_stack.getLast?.map (·.executed)) = some true ∧
    c1S4.2.2.items = [⟨"srcItem1", "v1", "A"⟩, ⟨"item1", "v1", "B"⟩] ∧
    c1S4.2.2.calls =
      [RemoteCall.insertItem "v1" "B", RemoteCall.deleteItem "item0",
       RemoteCall.insertItem "v1" "B", RemoteCall.deleteItem "item0"] := by
  decide
